import Mathlib

/-!
Shallow embedding of the Termibbl game server (src/server/server.rs).

The file `server.rs` is embedded faithfully.  The companion modules
`skribbl.rs` (SkribblState and its methods), `data.rs` (Message, Line,
CommandMsg) and `message.rs` (ToClientMsg, ToServerMsg) are not part of the
available sources; the definitions taken from them are modelled from the
specification and marked as such in their doc comments.

Machine integers: `get_time_now()` and `round_start_time` are Rust `u64`
values; the subtractions in `on_tick` are embedded with an explicit wrapping
subtraction `wsub64` (release-mode Rust semantics), and the `as u32` cast is
an explicit `% 2 ^ 32`.

Effects: each async handler is embedded as a function returning the mutated
state, the list of channel sends it performed (in order), and an `ok` flag.
`ok = false` means the Rust function returned `Err` at that point via `?`,
which skips the remainder of the handler; a session whose outbound channel is
closed is modelled by `alive = false`, and sending to it is the delivery
error.  The close signal of `UserSession::close` is a separate effect.
-/

namespace Termibbl

/-- Usernames are opaque identity strings (`data::Username`). -/
abbrev Username := String

/-- Modelled from the spec: `data::Line` (in `data.rs`, not under src/) is an
opaque immutable stroke segment whose contents the server logic never
inspects. -/
structure Line where
  pts : List (Nat × Nat)
deriving DecidableEq

/-- Modelled from the spec: `data::Message` (in `data.rs`, not under src/) is
either a user-authored chat message or a server-generated system message;
`text` projects the textual content used for guess comparison. -/
inductive Message where
  | userMsg (sender : Username) (text : String)
  | systemMsg (text : String)
deriving DecidableEq

def Message.text : Message → String
  | .userMsg _ t => t
  | .systemMsg t => t

/-- Modelled from the spec: per-player state inside a round — score, the
"has solved this round" flag, and the solve-order rank. -/
structure PlayerState where
  score : Nat
  has_solved : Bool
  solve_rank : Option Nat
deriving DecidableEq

/-- Modelled from the spec: the initial state of a freshly added player. -/
def PlayerState.initial : PlayerState :=
  { score := 0, has_solved := false, solve_rank := none }

/-- Modelled from the spec: `PlayerState::on_solve` marks the player solved,
records the next solve rank and adds score.  The exact amount added is not
fixed by the spec; any positive amount realises "add score" — 50 is used. -/
def PlayerState.on_solve (p : PlayerState) (rank : Nat) : PlayerState :=
  { p with score := p.score + 50, has_solved := true, solve_rank := some rank }

/-- Modelled from the spec: `SkribblState` (RoundState) — the secret current
word, the currently drawing player, the ordered player mapping (its order is
the drawing rotation order), the configured word list with a cursor used for
word selection, and the round start timestamp (`u64` seconds). -/
structure SkribblState where
  current_word : String
  drawing_user : Username
  player_states : List (Username × PlayerState)
  words : List String
  word_idx : Nat
  round_start_time : Nat
deriving DecidableEq

/-- Association-list lookup on the player mapping (HashMap::get). -/
def lookupPS : List (Username × PlayerState) → Username → Option PlayerState
  | [], _ => none
  | p :: rest, u => if p.1 = u then some p.2 else lookupPS rest u

/-- Index of a username in a rotation list (length if absent). -/
def idxOfName : List Username → Username → Nat
  | [], _ => 0
  | x :: rest, u => if x = u then 0 else idxOfName rest u + 1

/-- Modelled from the spec: round-robin selection of the next drawer over the
current members, skipping removed players; when the current drawer is no
longer a member a deterministic member is chosen.  Returns `none` only when
there are no players at all. -/
def nextDrawer (names : List Username) (cur : Username) : Option Username :=
  if names.length = 0 then none
  else names[(idxOfName names cur + 1) % names.length]?

/-- Modelled from the spec: whether `u` may still guess — not the current
drawer and not already solved this round. -/
def SkribblState.can_guess (s : SkribblState) (u : Username) : Bool :=
  decide (u ≠ s.drawing_user) &&
    !(((lookupPS s.player_states u).map PlayerState.has_solved).getD false)

/-- Modelled from the spec: all eligible (non-drawer) players have solved. -/
def SkribblState.did_all_solve (s : SkribblState) : Bool :=
  s.player_states.all (fun p => p.1 == s.drawing_user || p.2.has_solved)

/-- Number of players already marked solved (used as the next solve rank). -/
def SkribblState.solvedCount (s : SkribblState) : Nat :=
  (s.player_states.filter (fun p => p.2.has_solved)).length

/-- Replace the stored state of player `u` (HashMap::get_mut mutation). -/
def SkribblState.setPlayer (s : SkribblState) (u : Username) (p : PlayerState) :
    SkribblState :=
  { s with player_states := s.player_states.map (fun q => if q.1 = u then (u, p) else q) }

/-- Modelled from the spec: `SkribblState::remove_user` removes the player
from the mapping and hence from the rotation order. -/
def SkribblState.remove_user (s : SkribblState) (u : Username) : SkribblState :=
  { s with player_states := s.player_states.filter (fun p => p.1 ≠ u) }

/-- Modelled from the spec: `SkribblState::add_player` adds a fresh player to
the mapping and rotation; an already present player is kept unchanged. -/
def SkribblState.add_player (s : SkribblState) (u : Username) : SkribblState :=
  if (lookupPS s.player_states u).isSome then s
  else { s with player_states := s.player_states ++ [(u, PlayerState.initial)] }

/-- Modelled from the spec: `SkribblState::next_turn` advances the drawing
rotation to the next player, selects a new secret word from the configured
list, resets every player's solve flag and rank, and resets
`round_start_time` to now. -/
def SkribblState.next_turn (s : SkribblState) (now : Nat) : SkribblState :=
  let names := s.player_states.map Prod.fst
  let d := (nextDrawer names s.drawing_user).getD s.drawing_user
  { s with
    drawing_user := d
    current_word := (s.words[(s.word_idx + 1) % max s.words.length 1]?).getD s.current_word
    word_idx := s.word_idx + 1
    player_states :=
      s.player_states.map (fun p => (p.1, { p.2 with has_solved := false, solve_rank := none }))
    round_start_time := now }

/-- Modelled from the spec: `SkribblState::with_users` seeds a fresh round
with exactly the given users as players, the first user drawing, a first word
chosen from the list, and the round clock started at `now`. -/
def SkribblState.with_users (now : Nat) (users : List Username) (words : List String) :
    SkribblState :=
  { current_word := (words[0]?).getD ""
    drawing_user := (users[0]?).getD ""
    player_states := users.map (fun u => (u, PlayerState.initial))
    words := words
    word_idx := 0
    round_start_time := now }

/-- Modelled from the spec: the outbound wire message contract
(`message::ToClientMsg`, not under src/); a closed set of message kinds.
`timeChanged` carries a `u32`, embedded as a `Nat` already reduced
`% 2 ^ 32` at the cast site. -/
structure InitialStateMsg where
  lines : List Line
  skribbl_state : Option SkribblState
  dimensions : Nat × Nat
deriving DecidableEq

inductive ToClientMsg where
  | initialState (s : InitialStateMsg)
  | skribblStateChanged (s : SkribblState)
  | newMessage (m : Message)
  | newLine (l : Line)
  | clearCanvas
  | timeChanged (remainingSeconds : Nat)
deriving DecidableEq

/-- Modelled from the spec: `data::CommandMsg` (administrative commands). -/
inductive CommandMsg where
  | kickPlayer (u : Username)
deriving DecidableEq

/-- Modelled from the spec: the inbound wire message contract
(`message::ToServerMsg`, not under src/). -/
inductive ToServerMsg where
  | commandMsg (c : CommandMsg)
  | newMessage (m : Message)
  | newLine (l : Line)
  | clearCanvas
deriving DecidableEq

/-- Embeds `UserSession` (server.rs): the two channels are abstracted to the
liveness of the outbound channel — `send` succeeds iff `alive`; a dead
session is one whose channel is closed, which is the delivery error. -/
structure UserSession where
  username : Username
  alive : Bool
deriving DecidableEq

/-- Embeds `GameState` (server.rs). -/
inductive GameState where
  | freeDraw
  | skribbl (s : SkribblState)
deriving DecidableEq

/-- Embeds `GameState::skribbl_state` (server.rs). -/
def GameState.skribbl_state : GameState → Option SkribblState
  | GameState.skribbl s => some s
  | _ => none

def GameState.isSkribbl : GameState → Bool
  | GameState.skribbl _ => true
  | GameState.freeDraw => false

/-- Embeds `ServerState` (server.rs); the sessions HashMap is an association
list whose order stands for the (arbitrary but fixed) iteration order. -/
structure ServerState where
  sessions : List UserSession
  lines : List Line
  dimensions : Nat × Nat
  game_state : GameState
  words : Option (List String)
deriving DecidableEq

/-- Observable channel effects of one handler, in order of execution. -/
inductive Eff where
  | send (dst : Username) (msg : ToClientMsg)
  | close (u : Username)
deriving DecidableEq

/-- Result of one embedded handler: the mutated state, the effects it
performed, and whether it returned `Ok` (false = an `Err` was propagated by
`?`, skipping the rest of the handler's body). -/
structure StepRes where
  st : ServerState
  effs : List Eff
  ok : Bool
deriving DecidableEq

/-- Sequencing of `?`-propagating actions: run `f` on the resulting state
only when the first action succeeded; otherwise the remainder is skipped. -/
def andThen (r : StepRes) (f : ServerState → StepRes) : StepRes :=
  if r.ok then
    let r2 := f r.st
    ⟨r2.st, r.effs ++ r2.effs, r2.ok⟩
  else r

/-- Embeds the loop body of `ServerState::broadcast` (server.rs line 279):
`for (_, session) in self.sessions.iter() \x7b session.send(msg.clone()).await?; \x7d`
— each send is followed by `?`, so the first dead session aborts the
remaining deliveries and propagates the error. -/
def sendAll : List UserSession → ToClientMsg → List Eff × Bool
  | [], _ => ([], true)
  | s :: rest, m =>
    if s.alive then
      let r := sendAll rest m
      (Eff.send s.username m :: r.1, r.2)
    else ([], false)

/-- Embeds `ServerState::broadcast` (server.rs). -/
def ServerState.broadcast (st : ServerState) (m : ToClientMsg) : StepRes :=
  let r := sendAll st.sessions m
  ⟨st, r.1, r.2⟩

/-- Embeds `ServerState::broadcast_system_msg` (server.rs). -/
def ServerState.broadcast_system_msg (st : ServerState) (m : String) : StepRes :=
  st.broadcast (ToClientMsg.newMessage (Message.systemMsg m))

/-- Embeds `UserSession::send` for a single explicit session (used by
`on_user_joined` for the initial-state unicast). -/
def sendToSession (st : ServerState) (s : UserSession) (m : ToClientMsg) : StepRes :=
  if s.alive then ⟨st, [Eff.send s.username m], true⟩ else ⟨st, [], false⟩

/-- Embeds `ServerState::remove_player` (server.rs lines 123-138).  Note the
source line `self.sessions.remove(username).map(|x| x.close());`: the future
returned by `close()` is dropped without being awaited, so no close signal is
ever sent — accordingly no `Eff.close` is emitted here. -/
def ServerState.remove_player (st : ServerState) (now : Nat) (u : Username) : StepRes :=
  let sessions := st.sessions.filter (fun s => s.username ≠ u)
  match st.game_state with
  | GameState.skribbl sk =>
      let sk1 := sk.remove_user u
      let sk2 := if sk1.drawing_user = u then sk1.next_turn now else sk1
      let st1 := { st with sessions := sessions, game_state := GameState.skribbl sk2 }
      st1.broadcast (ToClientMsg.skribblStateChanged sk2)
  | GameState.freeDraw => ⟨{ st with sessions := sessions }, [], true⟩

/-- Embeds `ServerState::on_command_msg` (server.rs lines 140-145). -/
def ServerState.on_command_msg (st : ServerState) (now : Nat) (c : CommandMsg) : StepRes :=
  match c with
  | CommandMsg.kickPlayer kicked_player => st.remove_player now kicked_player

/-- ASCII lower-casing of one character, as used by
`str::eq_ignore_ascii_case`. -/
def asciiLower (c : Char) : Char :=
  if 65 ≤ c.toNat ∧ c.toNat ≤ 90 then Char.ofNat (c.toNat + 32) else c

/-- Embeds `str::eq_ignore_ascii_case`. -/
def eqIgnoreAsciiCase (a b : String) : Bool :=
  decide (a.toList.map asciiLower = b.toList.map asciiLower)

/-- Embeds `ServerState::on_new_message` (server.rs lines 147-195). -/
def ServerState.on_new_message (st : ServerState) (now : Nat) (username : Username)
    (msg : Message) : StepRes :=
  match st.game_state with
  | GameState.skribbl sk =>
    let can_guess := sk.can_guess username
    match lookupPS sk.player_states username with
    | some ps =>
      if can_guess && eqIgnoreAsciiCase msg.text sk.current_word then
        let sk1 := sk.setPlayer username (ps.on_solve sk.solvedCount)
        let all_solved := sk1.did_all_solve
        let old_word := sk1.current_word
        let sk2 := if all_solved then sk1.next_turn now else sk1
        let st1 := { st with game_state := GameState.skribbl sk2 }
        andThen (st1.broadcast (ToClientMsg.skribblStateChanged sk2)) (fun st2 =>
          andThen (st2.broadcast_system_msg (username ++ " guessed it!")) (fun st3 =>
            if all_solved then
              let st4 := { st3 with lines := [] }
              andThen (st4.broadcast ToClientMsg.clearCanvas) (fun st5 =>
                st5.broadcast_system_msg ("The word was: \x22" ++ old_word ++ "\x22"))
            else ⟨st3, [], true⟩))
      else
        st.broadcast (ToClientMsg.newMessage msg)
    | none =>
      st.broadcast (ToClientMsg.newMessage msg)
  | GameState.freeDraw =>
    match st.words with
    | some words =>
      let skribbl_state :=
        SkribblState.with_users now (st.sessions.map UserSession.username) words
      let st1 := { st with game_state := GameState.skribbl skribbl_state }
      andThen (st1.broadcast (ToClientMsg.skribblStateChanged skribbl_state)) (fun st2 =>
        st2.broadcast (ToClientMsg.newMessage msg))
    | none =>
      st.broadcast (ToClientMsg.newMessage msg)

/-- Embeds `ServerState::on_to_srv_msg` (server.rs lines 197-215). -/
def ServerState.on_to_srv_msg (st : ServerState) (now : Nat) (username : Username)
    (msg : ToServerMsg) : StepRes :=
  match msg with
  | ToServerMsg.commandMsg c => st.on_command_msg now c
  | ToServerMsg.newMessage m => st.on_new_message now username m
  | ToServerMsg.newLine l =>
      let st1 := { st with lines := st.lines ++ [l] }
      st1.broadcast (ToClientMsg.newLine l)
  | ToServerMsg.clearCanvas =>
      let st1 := { st with lines := [] }
      st1.broadcast ToClientMsg.clearCanvas

/-- Embeds `ROUND_DURATION` (server.rs line 19): `pub const ROUND_DURATION: u64 = 120`. -/
def ROUND_DURATION : Nat := 120

/-- Wrapping `u64` subtraction (release-mode Rust semantics of `a - b`). -/
def wsub64 (a b : Nat) : Nat := (a % 2 ^ 64 + (2 ^ 64 - b % 2 ^ 64)) % 2 ^ 64

/-- Embeds `ServerState::on_tick` (server.rs lines 217-236).  `now` stands
for `get_time_now()` (u64 seconds); `elapsed_time` and `remaining_time` are
the source's `u64` subtractions, which wrap on underflow; the source's
comparison `remaining_time <= 0` on `u64` is exactly `remaining_time = 0`,
and `remaining_time as u32` is `% 2 ^ 32`. -/
def ServerState.on_tick (st : ServerState) (now : Nat) : StepRes :=
  match st.game_state with
  | GameState.skribbl sk =>
    let elapsed_time := wsub64 now sk.round_start_time
    let remaining_time := wsub64 ROUND_DURATION elapsed_time
    if remaining_time = 0 then
      let old_word := sk.current_word
      let sk1 := sk.next_turn now
      let st1 := { st with game_state := GameState.skribbl sk1 }
      andThen (st1.broadcast (ToClientMsg.skribblStateChanged sk1)) (fun st2 =>
        let st3 := { st2 with lines := [] }
        andThen (st3.broadcast ToClientMsg.clearCanvas) (fun st4 =>
          andThen (st4.broadcast_system_msg ("The word was: \x22" ++ old_word ++ "\x22"))
            (fun st5 => st5.broadcast (ToClientMsg.timeChanged (remaining_time % 2 ^ 32)))))
    else
      st.broadcast (ToClientMsg.timeChanged (remaining_time % 2 ^ 32))
  | GameState.freeDraw => ⟨st, [], true⟩

/-- Embeds `ServerState::on_user_joined` (server.rs lines 238-258).  The
broadcasts run before the session is registered; the initial-state unicast
goes to the new session directly; `HashMap::insert` silently replaces any
existing entry for the same username and never signals close to it. -/
def ServerState.on_user_joined (st : ServerState) (_now : Nat) (session : UserSession) :
    StepRes :=
  let r1 : StepRes :=
    match st.game_state with
    | GameState.skribbl sk =>
      let sk1 := sk.add_player session.username
      let st1 := { st with game_state := GameState.skribbl sk1 }
      andThen (st1.broadcast (ToClientMsg.skribblStateChanged sk1)) (fun st2 =>
        st2.broadcast_system_msg (session.username ++ " joined"))
    | GameState.freeDraw => ⟨st, [], true⟩
  andThen r1 (fun st2 =>
    let initial_state : InitialStateMsg :=
      ⟨st2.lines, st2.game_state.skribbl_state, st2.dimensions⟩
    andThen (sendToSession st2 session (ToClientMsg.initialState initial_state)) (fun st3 =>
      ⟨{ st3 with sessions :=
            st3.sessions.filter (fun q => q.username ≠ session.username) ++ [session] },
        [], true⟩))

/-- Embeds `ServerEvent` (server.rs lines 49-55). -/
inductive ServerEvent where
  | toServerMsg (u : Username) (m : ToServerMsg)
  | userJoined (s : UserSession)
  | userLeft (u : Username)
  | tick
deriving DecidableEq

/-- Embeds the dispatch of one event inside `ServerState::run`
(server.rs lines 287-300); `now` is the wall-clock reading during the
processing of this event. -/
def stepEvent (st : ServerState) (now : Nat) (e : ServerEvent) : StepRes :=
  match e with
  | ServerEvent.toServerMsg u m => st.on_to_srv_msg now u m
  | ServerEvent.userJoined s => st.on_user_joined now s
  | ServerEvent.userLeft u => st.remove_player now u
  | ServerEvent.tick => st.on_tick now

/-- Embeds `ServerState::run` (server.rs lines 287-300) on a finite event
trace: each handler result is propagated with `?`, so the first handler that
returns `Err` terminates the loop and the remaining events are never
processed. -/
def runEvents (st : ServerState) : List (Nat × ServerEvent) → StepRes
  | [] => ⟨st, [], true⟩
  | (t, e) :: rest =>
    let r := stepEvent st t e
    if r.ok then
      let r2 := runEvents r.st rest
      ⟨r2.st, r.effs ++ r2.effs, r2.ok⟩
    else r

/-! General lemmas about the effect plumbing. -/

theorem broadcast_st (st : ServerState) (m : ToClientMsg) : (st.broadcast m).st = st := rfl

theorem broadcast_system_msg_st (st : ServerState) (m : String) :
    (st.broadcast_system_msg m).st = st := rfl

theorem andThen_st (r : StepRes) (f : ServerState → StepRes) :
    (andThen r f).st = if r.ok then (f r.st).st else r.st := by
  by_cases h : r.ok = true <;> simp [andThen, h]

theorem mem_andThen_effs (x : Eff) (r : StepRes) (f : ServerState → StepRes)
    (hx : x ∈ (andThen r f).effs) : x ∈ r.effs ∨ x ∈ (f r.st).effs := by
  by_cases h : r.ok = true <;> simp [andThen, h] at hx
  · exact hx
  · exact Or.inl hx

theorem mem_sendAll (x : Eff) (ss : List UserSession) (m : ToClientMsg)
    (hx : x ∈ (sendAll ss m).1) : ∃ u, x = Eff.send u m := by
  induction ss with
  | nil => simp [sendAll] at hx
  | cons s rest ih =>
    by_cases h : s.alive = true <;> simp [sendAll, h] at hx
    rcases hx with h1 | h2
    · exact ⟨s.username, h1⟩
    · exact ih h2

theorem sendAll_eq (ss : List UserSession) (m : ToClientMsg) :
    sendAll ss m
      = ((ss.takeWhile (fun s => s.alive)).map (fun s => Eff.send s.username m),
         ss.all (fun s => s.alive)) := by
  induction ss with
  | nil => rfl
  | cons s rest ih =>
    by_cases h : s.alive = true <;>
      simp [sendAll, List.takeWhile_cons, List.all_cons, h, ih]

theorem sendAll_all_alive (ss : List UserSession) (m : ToClientMsg)
    (h : ss.all (fun s => s.alive) = true) :
    sendAll ss m = (ss.map (fun s => Eff.send s.username m), true) := by
  rw [sendAll_eq, h]
  congr 1
  exact congrArg _ (List.takeWhile_eq_self_iff.mpr (by simpa [List.all_eq_true] using h))

/-! C1.  The claim says `broadcast` skips delivery errors of individual
sessions and that a failing session never terminates the event loop.  The
source (server.rs lines 279-284) instead applies `?` to every send, and
`run` (lines 287-300) applies `?` to every handler, so the first delivery
error aborts the rest of the broadcast and terminates the loop. -/

def c1Alice : UserSession := ⟨"alice", true⟩

def c1Bob : UserSession := ⟨"bob", false⟩

def c1St : ServerState := ⟨[c1Alice, c1Bob], [], (40, 20), GameState.freeDraw, none⟩

def c1Evt : ServerEvent := ServerEvent.toServerMsg "alice" ToServerMsg.clearCanvas

/-- C1, counterexample: with registered sessions `alice` (live) and `bob`
(dead channel), a broadcast reaches only `alice`, returns an error instead of
recovering, and over a two-event trace the event loop terminates after the
first event — `alice` receives one ClearCanvas, not two.  So a delivery error
is not skipped and does terminate the room actor's loop, refuting the
claim. -/
theorem c1_counterexample :
    c1St.sessions.map UserSession.username = ["alice", "bob"]
    ∧ (c1St.broadcast ToClientMsg.clearCanvas).effs
        = [Eff.send "alice" ToClientMsg.clearCanvas]
    ∧ (c1St.broadcast ToClientMsg.clearCanvas).ok = false
    ∧ (runEvents c1St [(0, c1Evt), (1, c1Evt)]).effs
        = [Eff.send "alice" ToClientMsg.clearCanvas]
    ∧ (runEvents c1St [(0, c1Evt), (1, c1Evt)]).ok = false := by decide

/-- C1, amended: `broadcast` delivers the message to the registered sessions
in registry order only up to the first dead session and then propagates the
delivery error (it succeeds exactly when every registered session is live);
a handler error terminates the event loop — the remaining events of the
trace are never processed. -/
theorem c1_theorem (ss : List UserSession) (m : ToClientMsg) (st : ServerState)
    (t : Nat) (e : ServerEvent) (rest : List (Nat × ServerEvent))
    (h : (stepEvent st t e).ok = false) :
    sendAll ss m
      = ((ss.takeWhile (fun s => s.alive)).map (fun s => Eff.send s.username m),
         ss.all (fun s => s.alive))
    ∧ runEvents st ((t, e) :: rest) = stepEvent st t e := by
  refine ⟨sendAll_eq ss m, ?_⟩
  simp [runEvents, h]

/-- C1, witness for the amended theorem at a concrete trace. -/
theorem c1_theorem_witness :
    sendAll [c1Alice, c1Bob] ToClientMsg.clearCanvas
      = ([Eff.send "alice" ToClientMsg.clearCanvas], false)
    ∧ runEvents c1St [(0, c1Evt), (1, c1Evt)] = stepEvent c1St 0 c1Evt := by
  have h := c1_theorem [c1Alice, c1Bob] ToClientMsg.clearCanvas c1St 0 c1Evt
    [(1, c1Evt)] (by decide)
  exact ⟨h.1.trans (by decide), h.2⟩

/-! C2.  The round-timeout tick.  `on_tick` computes
`ROUND_DURATION - elapsed_time` on `u64`: when `elapsed_time > 120` the
subtraction wraps instead of going negative, the `<= 0` test (which on `u64`
can only mean `= 0`) fails, no rotation is forced, and the broadcast value is
the wrapped number truncated to `u32`.  The comparison `remaining_time <= 0`
on an unsigned type shows the code expected a signed quantity — the spec
states the intent and the code underflows, a code bug. -/

def c2Sk : SkribblState :=
  { current_word := "cat", drawing_user := "alice",
    player_states := [("alice", PlayerState.initial), ("bob", PlayerState.initial)],
    words := ["cat", "dog", "eel"], word_idx := 0, round_start_time := 0 }

def c2St : ServerState :=
  { sessions := [⟨"alice", true⟩, ⟨"bob", true⟩], lines := [⟨[(1, 2)]⟩],
    dimensions := (40, 20), game_state := GameState.skribbl c2Sk,
    words := some ["cat", "dog", "eel"] }

/-- C2, evaluation at the failing input: a tick 121 seconds into the round
(elapsed ≥ 120) leaves the whole state unchanged — no rotation, no word
reveal, the canvas kept — and broadcasts the wrapped value 4294967295 as the
remaining seconds; by contrast the tick at exactly 120 does rotate.  This
contradicts the claim that elapsed ≥ 120 forces a rotation and that the
broadcast remaining time is never an underflowed value. -/
theorem c2_code_eval :
    (c2St.on_tick 121).st = c2St
    ∧ (c2St.on_tick 121).effs
        = [Eff.send "alice" (ToClientMsg.timeChanged 4294967295),
           Eff.send "bob" (ToClientMsg.timeChanged 4294967295)]
    ∧ (c2St.on_tick 121).ok = true
    ∧ (c2St.on_tick 120).st.game_state = GameState.skribbl (c2Sk.next_turn 120)
    ∧ (c2St.on_tick 120).st.lines = [] := by decide

/-! C7.  `remove_player` (server.rs line 124) runs
`self.sessions.remove(username).map(|x| x.close());` — `close()` is an async
function, the future it returns is dropped without ever being awaited, so
the close signal `close_send.send(())` inside it never executes.  The
session is detached from the registry but never signalled to close,
contradicting the claim (and the spec's `remove(username)` contract).  The
dropped `must_use` future contradicts the code's own intent of calling
`close`, a code bug. -/

def c7St : ServerState := ⟨[⟨"alice", true⟩], [], (40, 20), GameState.freeDraw, none⟩

/-- C7, evaluation at the failing input: removing the registered `alice`
detaches the session (the registry becomes empty) but the handler performs no
effect at all — in particular no close signal (`Eff.close`) is ever emitted,
because the future returned by `close()` is dropped unawaited.  The second
removal of the now-absent name is idempotent: state unchanged, no effects, no
error. -/
theorem c7_code_eval :
    (c7St.remove_player 0 "alice").st.sessions = []
    ∧ (c7St.remove_player 0 "alice").effs = []
    ∧ (c7St.remove_player 0 "alice").ok = true
    ∧ ((c7St.remove_player 0 "alice").st.remove_player 0 "alice")
        = ⟨(c7St.remove_player 0 "alice").st, [], true⟩ := by decide

/-! C6.  TimeChanged across ticks.  Two deviations from the claim: (a) a
tick that observes elapsed > 120 without a tick having landed on exactly 120
wraps the `u64` subtraction and broadcasts a huge value inside the same
round, breaking monotonicity; (b) the rotation tick itself broadcasts the
pre-rotation remaining value 0, so the first TimeChanged after a rotation is
0, and the reset to the full 120 only shows in the next tick. -/

theorem wsub64_of_le (a b : Nat) (hba : b ≤ a) (ha : a < 2 ^ 64) : wsub64 a b = a - b := by
  unfold wsub64
  omega

theorem andThen_ok_true (r : StepRes) (f : ServerState → StepRes) (h : r.ok = true) :
    andThen r f = ⟨(f r.st).st, r.effs ++ (f r.st).effs, (f r.st).ok⟩ := by
  simp [andThen, h]

/-- The tick of a round that has not yet reached the 120-second boundary:
no rotation, the state is untouched, and the broadcast value is exactly
`120 - elapsed`. -/
theorem on_tick_no_rotation (st : ServerState) (sk : SkribblState) (now : Nat)
    (hgs : st.game_state = GameState.skribbl sk)
    (h0 : sk.round_start_time ≤ now) (hlt : now < sk.round_start_time + 120)
    (hb : now < 2 ^ 64) :
    st.on_tick now
      = st.broadcast (ToClientMsg.timeChanged (120 - (now - sk.round_start_time))) := by
  have he : wsub64 now sk.round_start_time = now - sk.round_start_time :=
    wsub64_of_le _ _ h0 hb
  have hr : wsub64 ROUND_DURATION (now - sk.round_start_time)
      = 120 - (now - sk.round_start_time) := by
    unfold ROUND_DURATION
    exact wsub64_of_le _ _ (by omega) (by norm_num)
  have hne : ¬(120 - (now - sk.round_start_time) = 0) := by omega
  have hmod : (120 - (now - sk.round_start_time)) % 4294967296
      = 120 - (now - sk.round_start_time) := Nat.mod_eq_of_lt (by omega)
  simp [ServerState.on_tick, hgs, he, hr, hne, hmod]

/-- The tick that lands exactly on the 120-second boundary with all sessions
live: the round rotates once, the canvas is cleared, the old word is
revealed, and the same tick broadcasts the pre-rotation remaining value 0. -/
theorem on_tick_rotation (st : ServerState) (sk : SkribblState) (now : Nat)
    (hgs : st.game_state = GameState.skribbl sk)
    (hall : st.sessions.all (fun s => s.alive) = true)
    (hb : now < 2 ^ 64)
    (helapsed : now = sk.round_start_time + 120) :
    st.on_tick now
      = ⟨{ st with game_state := GameState.skribbl (sk.next_turn now), lines := [] },
         st.sessions.map (fun s => Eff.send s.username
             (ToClientMsg.skribblStateChanged (sk.next_turn now)))
           ++ st.sessions.map (fun s => Eff.send s.username ToClientMsg.clearCanvas)
           ++ st.sessions.map (fun s => Eff.send s.username (ToClientMsg.newMessage
               (Message.systemMsg ("The word was: \x22" ++ sk.current_word ++ "\x22"))))
           ++ st.sessions.map (fun s => Eff.send s.username (ToClientMsg.timeChanged 0)),
         true⟩ := by
  have he : wsub64 now sk.round_start_time = 120 := by
    rw [wsub64_of_le _ _ (by omega) hb]
    omega
  have hr : wsub64 ROUND_DURATION 120 = 0 := by decide
  have hsend : ∀ m, sendAll st.sessions m
      = (st.sessions.map (fun s => Eff.send s.username m), true) :=
    fun m => sendAll_all_alive _ _ hall
  simp [ServerState.on_tick, hgs, he, hr, andThen, ServerState.broadcast,
        ServerState.broadcast_system_msg, hsend]

def c6Sk : SkribblState :=
  { current_word := "cat", drawing_user := "alice",
    player_states := [("alice", PlayerState.initial), ("bob", PlayerState.initial)],
    words := ["cat", "dog", "eel"], word_idx := 0, round_start_time := 0 }

def c6St : ServerState :=
  { sessions := [⟨"alice", true⟩], lines := [], dimensions := (40, 20),
    game_state := GameState.skribbl c6Sk, words := some ["cat", "dog", "eel"] }

/-- C6, counterexample: within one round (the state is unchanged between the
two ticks, so no rotation happened), a tick at 119 seconds broadcasts
TimeChanged 1 and a following tick at 121 seconds broadcasts
TimeChanged 4294967295 — the successive remainingSeconds values increase,
refuting monotone non-increase within a round. -/
theorem c6_counterexample :
    (c6St.on_tick 119).st = c6St
    ∧ (c6St.on_tick 119).effs = [Eff.send "alice" (ToClientMsg.timeChanged 1)]
    ∧ ((c6St.on_tick 119).st.on_tick 121).st = c6St
    ∧ ((c6St.on_tick 119).st.on_tick 121).effs
        = [Eff.send "alice" (ToClientMsg.timeChanged 4294967295)]
    ∧ 1 < 4294967295 := by decide

/-- C6, amended: as long as every tick observes an elapsed time of at most
120 seconds, successive TimeChanged values within one round are monotonically
non-increasing and bounded by 120 (so never negative or wrapped); the tick
that reaches exactly 120 rotates and itself broadcasts TimeChanged 0 — not
120 — and the reset to the full duration appears in the first TimeChanged of
the following tick, which reports `120 - (time since rotation)`. -/
theorem c6_theorem (st : ServerState) (sk : SkribblState) (now1 now2 now3 : Nat)
    (hgs : st.game_state = GameState.skribbl sk)
    (hall : st.sessions.all (fun s => s.alive) = true)
    (h0 : sk.round_start_time ≤ now1) (h12 : now1 ≤ now2)
    (hlt : now1 < sk.round_start_time + 120)
    (hle : now2 ≤ sk.round_start_time + 120)
    (hb : now2 < 2 ^ 64)
    (h23 : now2 ≤ now3) (h3 : now3 < now2 + 120) (hb3 : now3 < 2 ^ 64) :
    ((st.on_tick now1).st = st
      ∧ (st.on_tick now1).effs = st.sessions.map (fun s => Eff.send s.username
          (ToClientMsg.timeChanged (120 - (now1 - sk.round_start_time)))))
    ∧ 120 - (now2 - sk.round_start_time) ≤ 120 - (now1 - sk.round_start_time)
    ∧ 120 - (now1 - sk.round_start_time) ≤ 120
    ∧ (now2 = sk.round_start_time + 120 →
        (st.on_tick now2).st.game_state = GameState.skribbl (sk.next_turn now2)
        ∧ (st.on_tick now2).effs
            = st.sessions.map (fun s => Eff.send s.username
                (ToClientMsg.skribblStateChanged (sk.next_turn now2)))
              ++ st.sessions.map (fun s => Eff.send s.username ToClientMsg.clearCanvas)
              ++ st.sessions.map (fun s => Eff.send s.username (ToClientMsg.newMessage
                  (Message.systemMsg ("The word was: \x22" ++ sk.current_word ++ "\x22"))))
              ++ st.sessions.map (fun s => Eff.send s.username (ToClientMsg.timeChanged 0))
        ∧ ((st.on_tick now2).st.on_tick now3).effs
            = st.sessions.map (fun s => Eff.send s.username
                (ToClientMsg.timeChanged (120 - (now3 - now2))))) := by
  have h1 := on_tick_no_rotation st sk now1 hgs h0 hlt (by omega)
  refine ⟨⟨?_, ?_⟩, by omega, by omega, ?_⟩
  · rw [h1]
    exact broadcast_st st _
  · rw [h1]
    simp [ServerState.broadcast, sendAll_all_alive _ _ hall]
  · intro h2
    have hrot := on_tick_rotation st sk now2 hgs hall hb h2
    rw [hrot]
    refine ⟨rfl, rfl, ?_⟩
    have hrst : (sk.next_turn now2).round_start_time = now2 := rfl
    have h3e := on_tick_no_rotation
      ({ st with game_state := GameState.skribbl (sk.next_turn now2), lines := [] })
      (sk.next_turn now2) now3 rfl (by rw [hrst]; exact h23) (by rw [hrst]; omega) hb3
    rw [h3e]
    simp [ServerState.broadcast, sendAll_all_alive _ _ hall, hrst]

/-- C6, witness for the amended theorem: a tick at second 60 then the
rotation tick at second 120 on a concrete room. -/
theorem c6_theorem_witness :
    (c6St.on_tick 120).st.game_state = GameState.skribbl (c6Sk.next_turn 120)
    ∧ (c6St.on_tick 120).effs
        = c6St.sessions.map (fun s => Eff.send s.username
            (ToClientMsg.skribblStateChanged (c6Sk.next_turn 120)))
          ++ c6St.sessions.map (fun s => Eff.send s.username ToClientMsg.clearCanvas)
          ++ c6St.sessions.map (fun s => Eff.send s.username (ToClientMsg.newMessage
              (Message.systemMsg ("The word was: \x22" ++ c6Sk.current_word ++ "\x22"))))
          ++ c6St.sessions.map (fun s => Eff.send s.username (ToClientMsg.timeChanged 0))
    ∧ ((c6St.on_tick 120).st.on_tick 120).effs
        = c6St.sessions.map (fun s => Eff.send s.username
            (ToClientMsg.timeChanged (120 - (120 - 120)))) := by
  exact (c6_theorem c6St c6Sk 60 120 120 rfl (by decide) (by decide) (by decide)
    (by decide) (by decide) (by decide) (by decide) (by decide) (by decide)).2.2.2 rfl

/-! C10.  `on_user_joined` ends with `self.sessions.insert(username, session)`
(server.rs line 256): a `HashMap` insert silently replaces an existing entry
for the same username; the replaced session is simply dropped — `close` is
never called on it, so no close signal is sent. -/

theorem filter_username_length (l : List UserSession) (u : Username)
    (hnd : (l.map UserSession.username).Nodup) (hm : u ∈ l.map UserSession.username) :
    (l.filter (fun q => q.username ≠ u)).length + 1 = l.length := by
  induction l with
  | nil => simp at hm
  | cons s rest ih =>
    rw [List.map_cons, List.nodup_cons] at hnd
    rw [List.map_cons, List.mem_cons] at hm
    by_cases hs : s.username = u
    · have hrest : rest.filter (fun q => decide (q.username ≠ u)) = rest :=
        List.filter_eq_self.mpr (fun a ha => by
          simp only [decide_eq_true_eq]
          intro hau
          apply hnd.1
          have hmem : a.username ∈ rest.map UserSession.username :=
            List.mem_map_of_mem UserSession.username ha
          rwa [hau, ← hs] at hmem)
      simp [List.filter_cons, hs, hrest]
      intro a ha hau
      apply hnd.1
      have hmem2 : a.username ∈ rest.map UserSession.username :=
        List.mem_map_of_mem UserSession.username ha
      rwa [hau, ← hs] at hmem2
    · rcases hm with h1 | h2
      · exact absurd h1.symm hs
      · have hlen := ih hnd.2 h2
        simp only [List.filter_cons, decide_eq_true_eq]
        rw [if_pos hs]
        simp only [List.length_cons]
        omega

theorem on_user_joined_effs_send (st : ServerState) (now : Nat) (s : UserSession)
    (x : Eff) (hx : x ∈ (st.on_user_joined now s).effs) : ∃ u m, x = Eff.send u m := by
  cases hgs : st.game_state with
  | freeDraw =>
    simp only [ServerState.on_user_joined, hgs] at hx
    rcases mem_andThen_effs _ _ _ hx with h1 | h2
    · simp at h1
    · rcases mem_andThen_effs _ _ _ h2 with h3 | h4
      · by_cases ha : s.alive = true <;> simp [sendToSession, ha] at h3
        exact ⟨s.username, _, h3⟩
      · simp at h4
  | skribbl sk =>
    simp only [ServerState.on_user_joined, hgs] at hx
    rcases mem_andThen_effs _ _ _ hx with h1 | h2
    · rcases mem_andThen_effs _ _ _ h1 with h3 | h4
      · rcases mem_sendAll _ _ _ h3 with ⟨u, hu⟩
        exact ⟨u, _, hu⟩
      · rcases mem_sendAll _ _ _ h4 with ⟨u, hu⟩
        exact ⟨u, _, hu⟩
    · rcases mem_andThen_effs _ _ _ h2 with h3 | h4
      · by_cases ha : s.alive = true <;> simp [sendToSession, ha] at h3
        exact ⟨s.username, _, h3⟩
      · simp at h4

/-- C10: joining with a username that already has a live registered session
silently replaces that registry entry with the new session — the registry
does not grow — and no close signal is ever sent to the replaced session. -/
theorem c10_theorem (st : ServerState) (now : Nat) (s : UserSession)
    (hnodup : (st.sessions.map UserSession.username).Nodup)
    (hmem : s.username ∈ st.sessions.map UserSession.username)
    (halive : s.alive = true)
    (hall : st.sessions.all (fun q => q.alive) = true) :
    (st.on_user_joined now s).st.sessions
        = st.sessions.filter (fun q => q.username ≠ s.username) ++ [s]
    ∧ (st.on_user_joined now s).st.sessions.length = st.sessions.length
    ∧ (∀ x, (st.on_user_joined now s).effs.count (Eff.close x) = 0) := by
  have hsess : (st.on_user_joined now s).st.sessions
      = st.sessions.filter (fun q => q.username ≠ s.username) ++ [s] := by
    cases hgs : st.game_state with
    | freeDraw =>
      simp [ServerState.on_user_joined, hgs, andThen, sendToSession, halive]
    | skribbl sk =>
      simp [ServerState.on_user_joined, hgs, andThen, sendToSession, halive,
        ServerState.broadcast, ServerState.broadcast_system_msg,
        sendAll_all_alive _ _ hall]
  refine ⟨hsess, ?_, ?_⟩
  · rw [hsess]
    have := filter_username_length st.sessions s.username hnodup hmem
    simp only [List.length_append, List.length_cons, List.length_nil]
    omega
  · intro x
    apply List.count_eq_zero_of_not_mem
    intro hmem2
    rcases on_user_joined_effs_send st now s _ hmem2 with ⟨u, m, hum⟩
    simp at hum

def c10St : ServerState := ⟨[⟨"alice", true⟩], [], (40, 20), GameState.freeDraw, none⟩

/-- C10, witness: `alice` rejoins with a fresh session while an older
`alice` session is registered. -/
theorem c10_theorem_witness :
    (c10St.on_user_joined 3 ⟨"alice", true⟩).st.sessions
        = c10St.sessions.filter (fun q => q.username ≠ "alice") ++ [⟨"alice", true⟩]
    ∧ (c10St.on_user_joined 3 ⟨"alice", true⟩).st.sessions.length = c10St.sessions.length
    ∧ (∀ x, (c10St.on_user_joined 3 ⟨"alice", true⟩).effs.count (Eff.close x) = 0) :=
  c10_theorem c10St 3 ⟨"alice", true⟩ (by decide) (by decide) (by decide) (by decide)

/-! C8.  The FreeDraw → Skribbl transition on the first chat message.  The
only assignment of `self.game_state` in server.rs is line 183, inside the
FreeDraw branch of `on_new_message`, guarded by `if let Some(words)`. -/

theorem andThen_effs (r : StepRes) (f : ServerState → StepRes) :
    (andThen r f).effs = if r.ok then r.effs ++ (f r.st).effs else r.effs := by
  by_cases h : r.ok = true <;> simp [andThen, h]

theorem andThen_gs (r : StepRes) (f : ServerState → StepRes) (v : GameState)
    (h1 : r.st.game_state = v) (h2 : ∀ s, s.game_state = v → (f s).st.game_state = v) :
    (andThen r f).st.game_state = v := by
  by_cases hok : r.ok = true <;> simp [andThen, hok]
  · exact h2 _ h1
  · exact h1

/-- With no configured word list and the game in FreeDraw, no event whatever
can change the game state or the word list: the room never transitions out of
FreeDraw. -/
theorem freeDraw_invariant (st : ServerState) (t : Nat) (e : ServerEvent)
    (hfd : st.game_state = GameState.freeDraw) (hw : st.words = none) :
    (stepEvent st t e).st.game_state = GameState.freeDraw
    ∧ (stepEvent st t e).st.words = none := by
  cases e with
  | toServerMsg u m =>
    cases m with
    | commandMsg c =>
      cases c with
      | kickPlayer k =>
        simp [stepEvent, ServerState.on_to_srv_msg, ServerState.on_command_msg,
          ServerState.remove_player, hfd, hw]
    | newMessage mm =>
      simp [stepEvent, ServerState.on_to_srv_msg, ServerState.on_new_message, hfd, hw,
        ServerState.broadcast]
    | newLine l =>
      simp [stepEvent, ServerState.on_to_srv_msg, ServerState.broadcast, hfd, hw]
    | clearCanvas =>
      simp [stepEvent, ServerState.on_to_srv_msg, ServerState.broadcast, hfd, hw]
  | userJoined s =>
    simp only [stepEvent, ServerState.on_user_joined, hfd]
    by_cases ha : s.alive = true <;>
      simp [andThen, sendToSession, ha, hfd, hw]
  | userLeft u =>
    simp [stepEvent, ServerState.remove_player, hfd, hw]
  | tick =>
    simp [stepEvent, ServerState.on_tick, hfd, hw]

/-- C8: a chat message processed in FreeDraw with a configured word list
transitions the room to Skribbl seeded with exactly the currently registered
usernames and broadcasts the new state (followed, on success, by the chat
message itself); with no word list configured, no event ever moves the room
out of FreeDraw. -/
theorem c8_theorem (st : ServerState) (now : Nat) (u : Username) (msg : Message)
    (ws : List String) (hfd : st.game_state = GameState.freeDraw) :
    (st.words = some ws →
      (st.on_new_message now u msg).st.game_state
        = GameState.skribbl
            (SkribblState.with_users now (st.sessions.map UserSession.username) ws)
      ∧ (SkribblState.with_users now
            (st.sessions.map UserSession.username) ws).player_states.map Prod.fst
          = st.sessions.map UserSession.username
      ∧ (st.on_new_message now u msg).effs
          = (sendAll st.sessions (ToClientMsg.skribblStateChanged
              (SkribblState.with_users now (st.sessions.map UserSession.username) ws))).1
            ++ (if st.sessions.all (fun s => s.alive) then
                  (sendAll st.sessions (ToClientMsg.newMessage msg)).1 else []))
    ∧ (st.words = none →
        ∀ t e, (stepEvent st t e).st.game_state = GameState.freeDraw) := by
  constructor
  · intro hws
    refine ⟨?_, ?_, ?_⟩
    · simp only [ServerState.on_new_message, hfd, hws]
      apply andThen_gs
      · rfl
      · intro s hs
        simpa [ServerState.broadcast] using hs
    · simp [SkribblState.with_users, List.map_map, Function.comp_def]
    · simp only [ServerState.on_new_message, hfd, hws]
      rw [andThen_effs]
      by_cases hall : st.sessions.all (fun s => s.alive) = true <;>
        simp [ServerState.broadcast, sendAll_eq, hall]
  · intro hw t e
    exact (freeDraw_invariant st t e hfd hw).1

def c8St : ServerState :=
  { sessions := [⟨"alice", true⟩, ⟨"bob", true⟩], lines := [], dimensions := (40, 20),
    game_state := GameState.freeDraw, words := some ["cat", "dog"] }

/-- C8, witness: the first chat message in a concrete FreeDraw room with a
word list seeds Skribbl with the two registered users. -/
theorem c8_theorem_witness :
    (c8St.on_new_message 3 "alice" (Message.userMsg "alice" "hello")).st.game_state
      = GameState.skribbl
          (SkribblState.with_users 3 (c8St.sessions.map UserSession.username) ["cat", "dog"])
    ∧ (SkribblState.with_users 3
          (c8St.sessions.map UserSession.username) ["cat", "dog"]).player_states.map Prod.fst
        = c8St.sessions.map UserSession.username
    ∧ (c8St.on_new_message 3 "alice" (Message.userMsg "alice" "hello")).effs
        = (sendAll c8St.sessions (ToClientMsg.skribblStateChanged
            (SkribblState.with_users 3 (c8St.sessions.map UserSession.username)
              ["cat", "dog"]))).1
          ++ (if c8St.sessions.all (fun s => s.alive) then
                (sendAll c8St.sessions
                  (ToClientMsg.newMessage (Message.userMsg "alice" "hello"))).1 else []) :=
  (c8_theorem c8St 3 "alice" (Message.userMsg "alice" "hello") ["cat", "dog"] rfl).1 rfl

/-! C9.  Once in Skribbl mode, no event goes back to FreeDraw: the only
write of `self.game_state` in server.rs is the FreeDraw → Skribbl transition
at line 183, and every Skribbl-branch mutation rebuilds a
`GameState::Skribbl` value. -/

theorem andThen_isSkribbl (r : StepRes) (f : ServerState → StepRes)
    (h1 : r.st.game_state.isSkribbl = true)
    (h2 : ∀ s, s.game_state.isSkribbl = true → (f s).st.game_state.isSkribbl = true) :
    (andThen r f).st.game_state.isSkribbl = true := by
  by_cases hok : r.ok = true <;> simp [andThen, hok]
  · exact h2 _ h1
  · exact h1

theorem remove_player_isSkribbl (st : ServerState) (now : Nat) (u : Username)
    (h : st.game_state.isSkribbl = true) :
    (st.remove_player now u).st.game_state.isSkribbl = true := by
  cases hgs : st.game_state with
  | freeDraw => rw [hgs] at h; simp [GameState.isSkribbl] at h
  | skribbl sk =>
    simp [ServerState.remove_player, hgs, ServerState.broadcast, GameState.isSkribbl]

theorem on_new_message_isSkribbl (st : ServerState) (now : Nat) (u : Username) (m : Message)
    (h : st.game_state.isSkribbl = true) :
    (st.on_new_message now u m).st.game_state.isSkribbl = true := by
  cases hgs : st.game_state with
  | freeDraw => rw [hgs] at h; simp [GameState.isSkribbl] at h
  | skribbl sk =>
    simp only [ServerState.on_new_message, hgs]
    cases hl : lookupPS sk.player_states u with
    | none => simp [ServerState.broadcast, GameState.isSkribbl, hgs]
    | some ps =>
      by_cases hc : (sk.can_guess u && eqIgnoreAsciiCase m.text sk.current_word) = true
      · simp only [hc, if_true]
        apply andThen_isSkribbl
        · simp [ServerState.broadcast, GameState.isSkribbl]
        · intro s hs
          apply andThen_isSkribbl
          · simpa [ServerState.broadcast_system_msg, ServerState.broadcast] using hs
          · intro s2 hs2
            by_cases hall :
                (sk.setPlayer u (ps.on_solve sk.solvedCount)).did_all_solve = true
            · simp only [hall, if_true]
              apply andThen_isSkribbl
              · simpa [ServerState.broadcast] using hs2
              · intro s3 hs3
                simpa [ServerState.broadcast_system_msg, ServerState.broadcast] using hs3
            · simp only [Bool.not_eq_true] at hall
              simp only [hall, Bool.false_eq_true, if_false]
              exact hs2
      · simp only [Bool.not_eq_true] at hc
        simp only [hc, Bool.false_eq_true, if_false]
        simp [ServerState.broadcast, GameState.isSkribbl, hgs]

theorem on_to_srv_msg_isSkribbl (st : ServerState) (now : Nat) (u : Username)
    (m : ToServerMsg) (h : st.game_state.isSkribbl = true) :
    (st.on_to_srv_msg now u m).st.game_state.isSkribbl = true := by
  cases m with
  | commandMsg c =>
    cases c with
    | kickPlayer k =>
      exact remove_player_isSkribbl st now k h
  | newMessage mm => exact on_new_message_isSkribbl st now u mm h
  | newLine l => simpa [ServerState.on_to_srv_msg, ServerState.broadcast] using h
  | clearCanvas => simpa [ServerState.on_to_srv_msg, ServerState.broadcast] using h

theorem on_tick_isSkribbl (st : ServerState) (now : Nat)
    (h : st.game_state.isSkribbl = true) :
    (st.on_tick now).st.game_state.isSkribbl = true := by
  cases hgs : st.game_state with
  | freeDraw => rw [hgs] at h; simp [GameState.isSkribbl] at h
  | skribbl sk =>
    simp only [ServerState.on_tick, hgs]
    by_cases hz : wsub64 ROUND_DURATION (wsub64 now sk.round_start_time) = 0
    · simp only [hz, if_true]
      apply andThen_isSkribbl
      · simp [ServerState.broadcast, GameState.isSkribbl]
      · intro s hs
        apply andThen_isSkribbl
        · simpa [ServerState.broadcast] using hs
        · intro s2 hs2
          apply andThen_isSkribbl
          · simpa [ServerState.broadcast_system_msg, ServerState.broadcast] using hs2
          · intro s3 hs3
            simpa [ServerState.broadcast] using hs3
    · simp only [hz, if_false]
      simp [ServerState.broadcast, GameState.isSkribbl, hgs]

theorem on_user_joined_isSkribbl (st : ServerState) (now : Nat) (s : UserSession)
    (h : st.game_state.isSkribbl = true) :
    (st.on_user_joined now s).st.game_state.isSkribbl = true := by
  cases hgs : st.game_state with
  | freeDraw => rw [hgs] at h; simp [GameState.isSkribbl] at h
  | skribbl sk =>
    simp only [ServerState.on_user_joined, hgs]
    apply andThen_isSkribbl
    · apply andThen_isSkribbl
      · simp [ServerState.broadcast, GameState.isSkribbl]
      · intro s2 hs2
        simpa [ServerState.broadcast_system_msg, ServerState.broadcast] using hs2
    · intro s2 hs2
      apply andThen_isSkribbl
      · by_cases ha : s.alive = true <;> simpa [sendToSession, ha] using hs2
      · intro s3 hs3
        simpa using hs3

/-- C9: once the game state is Skribbl, processing any event (chat, line,
clear, join, leave, kick, or tick) leaves it in Skribbl — the room never
falls back to FreeDraw. -/
theorem c9_theorem (st : ServerState) (now : Nat) (e : ServerEvent)
    (h : st.game_state.isSkribbl = true) :
    (stepEvent st now e).st.game_state.isSkribbl = true := by
  cases e with
  | toServerMsg u m => exact on_to_srv_msg_isSkribbl st now u m h
  | userJoined s => exact on_user_joined_isSkribbl st now s h
  | userLeft u => exact remove_player_isSkribbl st now u h
  | tick => exact on_tick_isSkribbl st now h

def c9Sk : SkribblState :=
  { current_word := "dog", drawing_user := "alice",
    player_states := [("alice", PlayerState.initial), ("bob", PlayerState.initial)],
    words := ["cat", "dog"], word_idx := 1, round_start_time := 7 }

def c9St : ServerState :=
  { sessions := [⟨"alice", true⟩, ⟨"bob", true⟩], lines := [], dimensions := (40, 20),
    game_state := GameState.skribbl c9Sk, words := some ["cat", "dog"] }

/-- C9, witness: a concrete Skribbl room stays in Skribbl across a tick. -/
theorem c9_theorem_witness :
    (stepEvent c9St 500 ServerEvent.tick).st.game_state.isSkribbl = true :=
  c9_theorem c9St 500 ServerEvent.tick (by decide)

/-! C3.  Guess evaluation in Skribbl mode (server.rs lines 147-175). -/

theorem lookupPS_reset (l : List (Username × PlayerState)) (u : Username) :
    lookupPS (l.map (fun p => (p.1, { p.2 with has_solved := false, solve_rank := none }))) u
      = (lookupPS l u).map
          (fun q => { q with has_solved := false, solve_rank := none }) := by
  induction l with
  | nil => rfl
  | cons p rest ih => by_cases h : p.1 = u <;> simp [lookupPS, h, ih]

theorem lookupPS_setPlayer (l : List (Username × PlayerState)) (u : Username)
    (p : PlayerState) (h : (lookupPS l u).isSome = true) :
    lookupPS (l.map (fun q => if q.1 = u then (u, p) else q)) u = some p := by
  induction l with
  | nil => simp [lookupPS] at h
  | cons q rest ih =>
    by_cases hq : q.1 = u
    · simp [lookupPS, hq]
    · simp only [lookupPS, hq, if_false] at h
      simp only [List.map_cons, if_neg hq, lookupPS, hq, if_false]
      exact ih h

/-- C3: a case-insensitively correct guess by a non-drawer who has not yet
solved marks that player solved (visible whenever the solve does not complete
the round, whose rotation resets the flags) with the score strictly
incremented, and the guess text is never broadcast as plain chat; the same
text from the drawer or from an already-solved player changes nothing and is
broadcast verbatim as plain chat. -/
theorem c3_theorem (st : ServerState) (sk : SkribblState) (now : Nat)
    (u sender : Username) (text : String) (ps : PlayerState)
    (hgs : st.game_state = GameState.skribbl sk)
    (hps : lookupPS sk.player_states u = some ps) :
    (sk.can_guess u = true → eqIgnoreAsciiCase text sk.current_word = true →
      (st.on_new_message now u (Message.userMsg sender text)).st.game_state
        = GameState.skribbl
            (if (sk.setPlayer u (ps.on_solve sk.solvedCount)).did_all_solve then
              (sk.setPlayer u (ps.on_solve sk.solvedCount)).next_turn now
             else sk.setPlayer u (ps.on_solve sk.solvedCount))
      ∧ (∀ dst, ((st.on_new_message now u (Message.userMsg sender text)).effs.count
            (Eff.send dst (ToClientMsg.newMessage (Message.userMsg sender text)))) = 0)
      ∧ (∃ q, lookupPS
            (if (sk.setPlayer u (ps.on_solve sk.solvedCount)).did_all_solve then
              (sk.setPlayer u (ps.on_solve sk.solvedCount)).next_turn now
             else sk.setPlayer u (ps.on_solve sk.solvedCount)).player_states u
          = some q
          ∧ q.score = ps.score + 50
          ∧ ((sk.setPlayer u (ps.on_solve sk.solvedCount)).did_all_solve = false →
              q.has_solved = true)))
    ∧ ((u = sk.drawing_user ∨ ps.has_solved = true) →
        (st.on_new_message now u (Message.userMsg sender text)).st = st
        ∧ (st.on_new_message now u (Message.userMsg sender text)).effs
            = (sendAll st.sessions
                (ToClientMsg.newMessage (Message.userMsg sender text))).1) := by
  constructor
  · intro hcan heq
    have hcond : (sk.can_guess u
        && eqIgnoreAsciiCase (Message.userMsg sender text).text sk.current_word) = true := by
      simp [Message.text, hcan, heq]
    refine ⟨?_, ?_, ?_⟩
    · simp only [ServerState.on_new_message, hgs, hps, hcond, if_true]
      by_cases hall : (sk.setPlayer u (ps.on_solve sk.solvedCount)).did_all_solve = true
      · simp only [hall, if_true]
        apply andThen_gs
        · rfl
        · intro s hs
          apply andThen_gs _ _ _
            (by simpa [ServerState.broadcast_system_msg, ServerState.broadcast] using hs)
          intro s2 hs2
          apply andThen_gs _ _ _ (by simpa [ServerState.broadcast] using hs2)
          intro s3 hs3
          simpa [ServerState.broadcast_system_msg, ServerState.broadcast] using hs3
      · simp only [Bool.not_eq_true] at hall
        simp only [hall, Bool.false_eq_true, if_false]
        apply andThen_gs
        · rfl
        · intro s hs
          apply andThen_gs _ _ _
            (by simpa [ServerState.broadcast_system_msg, ServerState.broadcast] using hs)
          intro s2 hs2
          exact hs2
    · intro dst
      apply List.count_eq_zero_of_not_mem
      intro hmem
      simp only [ServerState.on_new_message, hgs, hps, hcond, if_true] at hmem
      rcases mem_andThen_effs _ _ _ hmem with h1 | h2
      · rcases mem_sendAll _ _ _ h1 with ⟨w, hw⟩
        simp at hw
      · rcases mem_andThen_effs _ _ _ h2 with h3 | h4
        · rcases mem_sendAll _ _ _ h3 with ⟨w, hw⟩
          simp at hw
        · by_cases hall : (sk.setPlayer u (ps.on_solve sk.solvedCount)).did_all_solve = true
          · simp only [hall, if_true] at h4
            rcases mem_andThen_effs _ _ _ h4 with h5 | h6
            · rcases mem_sendAll _ _ _ h5 with ⟨w, hw⟩
              simp at hw
            · rcases mem_sendAll _ _ _ h6 with ⟨w, hw⟩
              simp at hw
          · simp only [Bool.not_eq_true] at hall
            simp only [hall, Bool.false_eq_true, if_false] at h4
            simp at h4
    · have hsome : (lookupPS sk.player_states u).isSome = true := by
        rw [hps]; rfl
      by_cases hall : (sk.setPlayer u (ps.on_solve sk.solvedCount)).did_all_solve = true
      · refine ⟨{ ps.on_solve sk.solvedCount with
            has_solved := false, solve_rank := none }, ?_, rfl, ?_⟩
        · simp only [hall, if_true, SkribblState.next_turn]
          rw [lookupPS_reset]
          rw [show (sk.setPlayer u (ps.on_solve sk.solvedCount)).player_states
            = sk.player_states.map
                (fun q => if q.1 = u then (u, ps.on_solve sk.solvedCount) else q) from rfl]
          rw [lookupPS_setPlayer sk.player_states u _ hsome]
          rfl
        · intro hcontra
          rw [hall] at hcontra
          cases hcontra
      · refine ⟨ps.on_solve sk.solvedCount, ?_, rfl, fun _ => rfl⟩
        simp only [Bool.not_eq_true] at hall
        simp only [hall, Bool.false_eq_true, if_false]
        rw [show (sk.setPlayer u (ps.on_solve sk.solvedCount)).player_states
          = sk.player_states.map
              (fun q => if q.1 = u then (u, ps.on_solve sk.solvedCount) else q) from rfl]
        exact lookupPS_setPlayer sk.player_states u _ hsome
  · intro hdr
    have hcg : sk.can_guess u = false := by
      rcases hdr with h | h
      · simp [SkribblState.can_guess, h]
      · simp [SkribblState.can_guess, hps, h]
    have hcond : (sk.can_guess u
        && eqIgnoreAsciiCase (Message.userMsg sender text).text sk.current_word) = false := by
      simp [hcg]
    simp [ServerState.on_new_message, hgs, hps, hcond, ServerState.broadcast]

def c3Sk : SkribblState :=
  { current_word := "cat", drawing_user := "alice",
    player_states := [("alice", PlayerState.initial), ("bob", PlayerState.initial),
      ("carol", PlayerState.initial)],
    words := ["cat", "dog", "eel"], word_idx := 0, round_start_time := 0 }

def c3St : ServerState :=
  { sessions := [⟨"alice", true⟩, ⟨"bob", true⟩, ⟨"carol", true⟩], lines := [],
    dimensions := (40, 20), game_state := GameState.skribbl c3Sk,
    words := some ["cat", "dog", "eel"] }

/-- C3, witness: `bob` (non-drawer, unsolved) guessing "CAT" against the word
"cat" is never echoed as plain chat; the drawer `alice` sending "cat" leaves
the whole room state unchanged. -/
theorem c3_theorem_witness :
    ((c3St.on_new_message 5 "bob" (Message.userMsg "bob" "CAT")).effs.count
        (Eff.send "carol" (ToClientMsg.newMessage (Message.userMsg "bob" "CAT"))) = 0)
    ∧ (c3St.on_new_message 5 "alice" (Message.userMsg "alice" "cat")).st = c3St := by
  constructor
  · exact ((c3_theorem c3St c3Sk 5 "bob" "bob" "CAT" PlayerState.initial rfl (by decide)).1
      (by decide) (by decide)).2.1 "carol"
  · exact ((c3_theorem c3St c3Sk 5 "alice" "alice" "cat" PlayerState.initial rfl
      (by decide)).2 (Or.inl (by decide))).1

/-! C4.  Round completion by the last eligible guesser (server.rs
lines 155-173): one `next_turn`, canvas cleared with a ClearCanvas
broadcast, and one word-reveal system message, none of which re-fires on
later guesses of the already-rotated round. -/

theorem on_new_message_no_match (s : ServerState) (sk : SkribblState) (now : Nat)
    (u : Username) (m : Message)
    (hgs : s.game_state = GameState.skribbl sk)
    (hne : eqIgnoreAsciiCase m.text sk.current_word = false) :
    s.on_new_message now u m = s.broadcast (ToClientMsg.newMessage m) := by
  cases hl : lookupPS sk.player_states u with
  | none => simp [ServerState.on_new_message, hgs, hl]
  | some ps => simp [ServerState.on_new_message, hgs, hl, hne]

/-- C4: when a correct guess makes every eligible (non-drawer) player
solved, the handling of that one chat event rotates exactly once, clears the
line history, and broadcasts — in order — the rotated state, the "guessed
it!" message, one ClearCanvas per session, and one word-reveal system
message per session; any later guess that does not match the new round's
word leaves the rotated state untouched and is only echoed as chat, so the
completion sequence cannot re-fire for the finished round. -/
theorem c4_theorem (st : ServerState) (sk : SkribblState) (now : Nat)
    (u sender : Username) (text : String) (ps : PlayerState)
    (hgs : st.game_state = GameState.skribbl sk)
    (hps : lookupPS sk.player_states u = some ps)
    (hcan : sk.can_guess u = true)
    (heq : eqIgnoreAsciiCase text sk.current_word = true)
    (hall : st.sessions.all (fun s => s.alive) = true)
    (hdone : (sk.setPlayer u (ps.on_solve sk.solvedCount)).did_all_solve = true) :
    (st.on_new_message now u (Message.userMsg sender text)).st.game_state
      = GameState.skribbl ((sk.setPlayer u (ps.on_solve sk.solvedCount)).next_turn now)
    ∧ (st.on_new_message now u (Message.userMsg sender text)).st.lines = []
    ∧ (st.on_new_message now u (Message.userMsg sender text)).effs
        = st.sessions.map (fun s => Eff.send s.username (ToClientMsg.skribblStateChanged
            ((sk.setPlayer u (ps.on_solve sk.solvedCount)).next_turn now)))
          ++ (st.sessions.map (fun s => Eff.send s.username (ToClientMsg.newMessage
              (Message.systemMsg (u ++ " guessed it!"))))
            ++ (st.sessions.map (fun s => Eff.send s.username ToClientMsg.clearCanvas)
              ++ st.sessions.map (fun s => Eff.send s.username (ToClientMsg.newMessage
                  (Message.systemMsg ("The word was: \x22" ++ sk.current_word ++ "\x22"))))))
    ∧ (∀ u2 sender2 text2 now2,
        eqIgnoreAsciiCase text2
            ((sk.setPlayer u (ps.on_solve sk.solvedCount)).next_turn now).current_word
          = false →
        ((st.on_new_message now u (Message.userMsg sender text)).st.on_new_message
            now2 u2 (Message.userMsg sender2 text2)).st
          = (st.on_new_message now u (Message.userMsg sender text)).st
        ∧ ((st.on_new_message now u (Message.userMsg sender text)).st.on_new_message
            now2 u2 (Message.userMsg sender2 text2)).effs
          = (sendAll (st.on_new_message now u (Message.userMsg sender text)).st.sessions
              (ToClientMsg.newMessage (Message.userMsg sender2 text2))).1) := by
  have hcond : (sk.can_guess u
      && eqIgnoreAsciiCase (Message.userMsg sender text).text sk.current_word) = true := by
    simp [Message.text, hcan, heq]
  have hstep : st.on_new_message now u (Message.userMsg sender text)
      = ⟨{ st with
            game_state :=
              GameState.skribbl ((sk.setPlayer u (ps.on_solve sk.solvedCount)).next_turn now)
            lines := [] },
         st.sessions.map (fun s => Eff.send s.username (ToClientMsg.skribblStateChanged
            ((sk.setPlayer u (ps.on_solve sk.solvedCount)).next_turn now)))
          ++ (st.sessions.map (fun s => Eff.send s.username (ToClientMsg.newMessage
              (Message.systemMsg (u ++ " guessed it!"))))
            ++ (st.sessions.map (fun s => Eff.send s.username ToClientMsg.clearCanvas)
              ++ st.sessions.map (fun s => Eff.send s.username (ToClientMsg.newMessage
                  (Message.systemMsg ("The word was: \x22" ++ sk.current_word ++ "\x22")))))),
         true⟩ := by
    simp only [ServerState.on_new_message, hgs, hps, hcond, if_true, hdone]
    simp [andThen, ServerState.broadcast, ServerState.broadcast_system_msg,
      sendAll_all_alive _ _ hall]
    intro a _
    rfl
  refine ⟨by rw [hstep], by rw [hstep], by rw [hstep], ?_⟩
  intro u2 sender2 text2 now2 hne
  have hgs2 : (st.on_new_message now u (Message.userMsg sender text)).st.game_state
      = GameState.skribbl ((sk.setPlayer u (ps.on_solve sk.solvedCount)).next_turn now) := by
    rw [hstep]
  have hnm := on_new_message_no_match
    (st.on_new_message now u (Message.userMsg sender text)).st
    ((sk.setPlayer u (ps.on_solve sk.solvedCount)).next_turn now) now2 u2
    (Message.userMsg sender2 text2) hgs2 hne
  rw [hnm]
  exact ⟨rfl, rfl⟩

def c4Sk : SkribblState :=
  { current_word := "cat", drawing_user := "alice",
    player_states := [("alice", PlayerState.initial), ("bob", PlayerState.initial)],
    words := ["cat", "dog", "eel"], word_idx := 0, round_start_time := 0 }

def c4St : ServerState :=
  { sessions := [⟨"alice", true⟩, ⟨"bob", true⟩], lines := [⟨[(3, 4)]⟩],
    dimensions := (40, 20), game_state := GameState.skribbl c4Sk,
    words := some ["cat", "dog", "eel"] }

/-- C4, witness: `bob` is the only eligible guesser; his correct guess
completes the round — one rotation, canvas cleared, reveal broadcast — and a
later wrong guess in the new round changes nothing. -/
theorem c4_theorem_witness :
    (c4St.on_new_message 5 "bob" (Message.userMsg "bob" "cAt")).st.game_state
      = GameState.skribbl
          ((c4Sk.setPlayer "bob" (PlayerState.initial.on_solve c4Sk.solvedCount)).next_turn 5)
    ∧ (c4St.on_new_message 5 "bob" (Message.userMsg "bob" "cAt")).st.lines = []
    ∧ (c4St.on_new_message 5 "bob" (Message.userMsg "bob" "cAt")).effs
        = c4St.sessions.map (fun s => Eff.send s.username (ToClientMsg.skribblStateChanged
            ((c4Sk.setPlayer "bob"
              (PlayerState.initial.on_solve c4Sk.solvedCount)).next_turn 5)))
          ++ (c4St.sessions.map (fun s => Eff.send s.username (ToClientMsg.newMessage
              (Message.systemMsg ("bob" ++ " guessed it!"))))
            ++ (c4St.sessions.map (fun s => Eff.send s.username ToClientMsg.clearCanvas)
              ++ c4St.sessions.map (fun s => Eff.send s.username (ToClientMsg.newMessage
                  (Message.systemMsg
                    ("The word was: \x22" ++ c4Sk.current_word ++ "\x22"))))))
    ∧ (∀ u2 sender2 text2 now2,
        eqIgnoreAsciiCase text2
            ((c4Sk.setPlayer "bob"
              (PlayerState.initial.on_solve c4Sk.solvedCount)).next_turn 5).current_word
          = false →
        ((c4St.on_new_message 5 "bob" (Message.userMsg "bob" "cAt")).st.on_new_message
            now2 u2 (Message.userMsg sender2 text2)).st
          = (c4St.on_new_message 5 "bob" (Message.userMsg "bob" "cAt")).st
        ∧ ((c4St.on_new_message 5 "bob" (Message.userMsg "bob" "cAt")).st.on_new_message
            now2 u2 (Message.userMsg sender2 text2)).effs
          = (sendAll (c4St.on_new_message 5 "bob" (Message.userMsg "bob" "cAt")).st.sessions
              (ToClientMsg.newMessage (Message.userMsg sender2 text2))).1) :=
  c4_theorem c4St c4Sk 5 "bob" "bob" "cAt" PlayerState.initial rfl (by decide) (by decide)
    (by decide) (by decide) (by decide)

/-! C5.  Removing a player in Skribbl mode — via a UserLeft event or a
KickPlayer command, both of which route to `remove_player`
(server.rs lines 123-145). -/

/-- Derived abbreviation for the round state produced by the Skribbl branch
of `remove_player` (server.rs lines 126-130): first `remove_user`, then
`next_turn` iff the removed user was the one drawing. -/
def removeRound (sk : SkribblState) (u : Username) (now : Nat) : SkribblState :=
  if (sk.remove_user u).drawing_user = u then (sk.remove_user u).next_turn now
  else sk.remove_user u

theorem remove_player_skribbl_eq (st : ServerState) (sk : SkribblState) (now : Nat)
    (u : Username) (hgs : st.game_state = GameState.skribbl sk) :
    st.remove_player now u
      = ({ st with
            sessions := st.sessions.filter (fun s => s.username ≠ u)
            game_state := GameState.skribbl (removeRound sk u now) } : ServerState).broadcast
          (ToClientMsg.skribblStateChanged (removeRound sk u now)) := by
  simp [ServerState.remove_player, hgs, removeRound]

theorem nextDrawer_mem (names : List Username) (cur : Username) (h : names ≠ []) :
    ∃ d, nextDrawer names cur = some d ∧ d ∈ names := by
  have hlen : 0 < names.length := List.length_pos.mpr h
  have hi : (idxOfName names cur + 1) % names.length < names.length :=
    Nat.mod_lt _ hlen
  refine ⟨names[(idxOfName names cur + 1) % names.length], ?_, List.getElem_mem hi⟩
  unfold nextDrawer
  rw [if_neg hlen.ne']
  exact List.getElem?_eq_getElem hi

theorem count_map_fst_filter (l : List (Username × PlayerState)) (u : Username) :
    ((l.filter (fun p => p.1 ≠ u)).map Prod.fst).count u = 0 := by
  apply List.count_eq_zero_of_not_mem
  intro hm
  rcases List.mem_map.mp hm with ⟨p, hp, hpu⟩
  have hkeep := List.of_mem_filter hp
  simp only [decide_eq_true_eq] at hkeep
  exact hkeep hpu

theorem next_turn_players (s : SkribblState) (now : Nat) :
    (s.next_turn now).player_states.map Prod.fst = s.player_states.map Prod.fst := by
  simp [SkribblState.next_turn, List.map_map, Function.comp_def]

theorem next_turn_drawing_user (s : SkribblState) (now : Nat) :
    (s.next_turn now).drawing_user
      = (nextDrawer (s.player_states.map Prod.fst) s.drawing_user).getD s.drawing_user := rfl

/-- C5: removing `u` (leave or kick) while the game is Skribbl removes `u`
from the registry and from the round's player mapping/rotation; the
broadcast that follows carries the post-removal (and, if `u` was drawing,
post-rotation) state; if `u` was the drawer and at least one other player
remains, the new drawer is a current player and is not `u`. -/
theorem c5_theorem (st : ServerState) (sk : SkribblState) (now : Nat) (u v : Username)
    (hgs : st.game_state = GameState.skribbl sk)
    (hv : v ∈ sk.player_states.map Prod.fst) (hvu : v ≠ u) :
    (st.remove_player now u).st.sessions = st.sessions.filter (fun s => s.username ≠ u)
    ∧ (st.remove_player now u).st.game_state = GameState.skribbl (removeRound sk u now)
    ∧ ((removeRound sk u now).player_states.map Prod.fst).count u = 0
    ∧ (st.remove_player now u).effs
        = (sendAll (st.sessions.filter (fun s => s.username ≠ u))
            (ToClientMsg.skribblStateChanged (removeRound sk u now))).1
    ∧ (sk.drawing_user = u →
        decide ((removeRound sk u now).drawing_user = u) = false
        ∧ (removeRound sk u now).drawing_user
            ∈ (removeRound sk u now).player_states.map Prod.fst)
    ∧ st.on_command_msg now (CommandMsg.kickPlayer u) = st.remove_player now u
    ∧ stepEvent st now (ServerEvent.userLeft u) = st.remove_player now u := by
  have heq := remove_player_skribbl_eq st sk now u hgs
  have hcnt : ((removeRound sk u now).player_states.map Prod.fst).count u = 0 := by
    by_cases hd : (sk.remove_user u).drawing_user = u
    · rw [removeRound, if_pos hd, next_turn_players]
      exact count_map_fst_filter sk.player_states u
    · rw [removeRound, if_neg hd]
      exact count_map_fst_filter sk.player_states u
  refine ⟨by rw [heq]; rfl, by rw [heq]; rfl, hcnt, by rw [heq]; rfl, ?_, rfl, rfl⟩
  intro hdraw
  have hd : (sk.remove_user u).drawing_user = u := hdraw
  have hvmem : v ∈ (sk.remove_user u).player_states.map Prod.fst := by
    rcases List.mem_map.mp hv with ⟨p, hp, hpv⟩
    exact List.mem_map.mpr ⟨p, List.mem_filter.mpr
      ⟨hp, by simp [decide_eq_true_eq]; rw [hpv]; exact hvu⟩, hpv⟩
  have hne : (sk.remove_user u).player_states.map Prod.fst ≠ [] :=
    List.ne_nil_of_mem hvmem
  rcases nextDrawer_mem ((sk.remove_user u).player_states.map Prod.fst)
    (sk.remove_user u).drawing_user hne with ⟨d, hdier, hdmem⟩
  have hdu : (removeRound sk u now).drawing_user = d := by
    rw [removeRound, if_pos hd, next_turn_drawing_user, hdier]
    rfl
  have hunotmem : u ∉ (sk.remove_user u).player_states.map Prod.fst := by
    apply List.not_mem_of_count_eq_zero
    exact count_map_fst_filter sk.player_states u
  have hdne : d ≠ u := fun hcon => hunotmem (hcon ▸ hdmem)
  constructor
  · rw [hdu]
    exact decide_eq_false hdne
  · rw [hdu, removeRound, if_pos hd, next_turn_players]
    exact hdmem

def c5Sk : SkribblState :=
  { current_word := "dog", drawing_user := "alice",
    player_states := [("alice", PlayerState.initial), ("bob", PlayerState.initial)],
    words := ["cat", "dog"], word_idx := 1, round_start_time := 3 }

def c5St : ServerState :=
  { sessions := [⟨"alice", true⟩, ⟨"bob", true⟩], lines := [], dimensions := (40, 20),
    game_state := GameState.skribbl c5Sk, words := some ["cat", "dog"] }

/-- C5, witness: kicking the drawer `alice` while `bob` remains rotates to a
drawer that is a current player and is not `alice`. -/
theorem c5_theorem_witness :
    (c5St.remove_player 9 "alice").st.sessions
        = c5St.sessions.filter (fun s => s.username ≠ "alice")
    ∧ (c5St.remove_player 9 "alice").st.game_state
        = GameState.skribbl (removeRound c5Sk "alice" 9)
    ∧ ((removeRound c5Sk "alice" 9).player_states.map Prod.fst).count "alice" = 0
    ∧ (c5St.remove_player 9 "alice").effs
        = (sendAll (c5St.sessions.filter (fun s => s.username ≠ "alice"))
            (ToClientMsg.skribblStateChanged (removeRound c5Sk "alice" 9))).1
    ∧ ("alice" = c5Sk.drawing_user →
        decide ((removeRound c5Sk "alice" 9).drawing_user = "alice") = false
        ∧ (removeRound c5Sk "alice" 9).drawing_user
            ∈ (removeRound c5Sk "alice" 9).player_states.map Prod.fst)
    ∧ c5St.on_command_msg 9 (CommandMsg.kickPlayer "alice") = c5St.remove_player 9 "alice"
    ∧ stepEvent c5St 9 (ServerEvent.userLeft "alice") = c5St.remove_player 9 "alice" := by
  have h := c5_theorem c5St c5Sk 9 "alice" "bob" rfl (by decide) (by decide)
  exact ⟨h.1, h.2.1, h.2.2.1, h.2.2.2.1,
    fun hd => h.2.2.2.2.1 hd.symm, h.2.2.2.2.2.1, h.2.2.2.2.2.2⟩

end Termibbl
